import Mathlib

/-!
Shallow embedding of `src/project/yaml_file.py` (class `YamlFile` and the
helper `_atomic_replace`), with theorems checking the natural-language
specification against the code.

Modelling conventions:
* The ruamel round-trip tree is `YValue`: scalars, sequences, and
  order-preserving mappings (association lists).  A mapping node carries an
  optional start comment (`yaml_set_start_comment`).
* Python in-place mutation of an aliased subtree is rendered as functional
  write-back along the dot-path.
* A Python method on the object becomes a function
  `YamlFile → args → Except PyErr result × YamlFile`; the second component is
  the object state after the call, including the partially-mutated state left
  behind when the method raises.
* The external parser/serializer is an explicit parameter (`parse`, `dump`);
  `parse` returns `Except String (Option YValue)` because ruamel yields no
  value (None) for empty input and a diagnostic string on a YAMLError.
* Disk I/O is a `Disk` (main file plus the sibling `.tmp` file) together with
  boolean fault-injection flags for the write and rename steps.
-/

namespace YamlFileSpec

/-- Scalar leaves of the YAML tree (the sub-universe the claims need). -/
inductive YScalar where
  | str : String → YScalar
  | int : Int → YScalar
  | bool : Bool → YScalar
  | null : YScalar

/-- A ruamel round-trip parse tree: scalar, sequence, or order-preserving
mapping.  A mapping carries an optional start comment and its entries in
insertion order. -/
inductive YValue where
  | scalar : YScalar → YValue
  | seq : List YValue → YValue
  | map : Option String → List (String × YValue) → YValue

/-- Dict lookup, Python `current[p]` on a mapping (first binding wins). -/
def mapGet (es : List (String × YValue)) (k : String) : Option YValue :=
  match es with
  | [] => none
  | (k₁, v₁) :: rest => if k₁ = k then some v₁ else mapGet rest k

/-- Dict assignment `d[k] = v`: update in place keeping the original position,
or append a fresh binding at the end (insertion order, like CommentedMap). -/
def mapSet (es : List (String × YValue)) (k : String) (v : YValue) :
    List (String × YValue) :=
  match es with
  | [] => [(k, v)]
  | (k₁, v₁) :: rest => if k₁ = k then (k₁, v) :: rest else (k₁, v₁) :: mapSet rest k v

/-- Python `section_path.split(".")` on the character list: splits at every
dot, keeping empty segments, so the result is always non-empty (the empty
string splits to one empty segment, as in Python). -/
def splitDot (s : List Char) : List (List Char) :=
  match s with
  | [] => [[]]
  | c :: rest =>
    let r := splitDot rest
    if c = '.' then [] :: r
    else
      match r with
      | [] => [[c]]
      | h :: t => (c :: h) :: t

/-- Python `section_path.split(".")`. -/
def splitPath (s : String) : List String :=
  (splitDot s.data).map (fun l => String.mk l)

/-- Whether `pat` is an initial segment of `s`. -/
def startsList (s pat : List Char) : Bool :=
  match s, pat with
  | _, [] => true
  | [], _ :: _ => false
  | c :: s₁, d :: p₁ => c = d && startsList s₁ p₁

/-- Whether `pat` occurs contiguously inside `s`. -/
def subList (s pat : List Char) : Bool :=
  startsList s pat ||
    match s with
    | [] => false
    | _ :: rest => subList rest pat

/-- Python `pat in s` on strings is a substring test (`"" in s` is True). -/
def strContains (s pat : String) : Bool :=
  subList s.data pat.data

/-- Python exceptions that the embedded code can raise. -/
inductive PyErr where
  | typeError
  | attributeError
  | valueError : String → PyErr
  | ioError
deriving DecidableEq

/-- The mutable state of a `YamlFile` object: `filename`, `_yaml`, `_dirty`,
`_corrupted`, `_corrupted_error_message`. -/
structure YamlFile where
  filename : String
  yaml : YValue
  dirty : Bool
  corrupted : Bool
  corruptedErrorMessage : Option String

/-- Python `"%s" % m` renders None as the text None. -/
def optStr (m : Option String) : String :=
  match m with
  | none => "None"
  | some s => s

/-- The ValueError raised by `_throw_if_corrupted` (the ModifyCorruptedFailure
of the spec), carrying the filename and the stored corruption message. -/
def corruptedError (st : YamlFile) : PyErr :=
  .valueError ("Cannot modify corrupted YAML file " ++ st.filename ++ "\n" ++
    optStr st.corruptedErrorMessage)

/-- One traversal step of `_get_section_or_none`: `p in current` followed by
`current = current[p]`.  On a mapping this is key lookup; on a string scalar,
Python `in` is a substring test and subscripting by a string raises TypeError;
on a sequence, `in` is element equality with the string `p` and subscripting
by a string raises TypeError; on any other scalar, `in` itself raises
TypeError.  Returns `ok none` when a segment is missing. -/
def getSectionPieces (pieces : List String) (v : YValue) :
    Except PyErr (Option YValue) :=
  match pieces with
  | [] => .ok (some v)
  | p :: rest =>
    match v with
    | .map _ es =>
      match mapGet es p with
      | some child => getSectionPieces rest child
      | none => .ok none
    | .scalar (.str s) =>
      if strContains s p then .error .typeError else .ok none
    | .seq l =>
      if l.any (fun e => match e with | .scalar (.str s) => s = p | _ => false)
      then .error .typeError else .ok none
    | .scalar _ => .error .typeError

/-- Body of `_get_section_or_none(section_path)`: split on dots and traverse. -/
def getSectionOrNone (st : YamlFile) (sectionPath : String) :
    Except PyErr (Option YValue) :=
  getSectionPieces (splitPath sectionPath) st.yaml

/-- Loop body of `_ensure_section` over the split path.  Returns (in order)
the result of the loop (the final node, or the exception raised), the tree
after the partial in-place mutations, and whether `self._dirty = True` ran.
On a mapping, a missing key is created as an empty plain `dict()`; on a
non-mapping node the membership test or the assignment raises TypeError
before any mutation of that node. -/
def ensurePieces (pieces : List String) (v : YValue) :
    Except PyErr YValue × YValue × Bool :=
  match pieces with
  | [] => (.ok v, v, false)
  | p :: rest =>
    match v with
    | .map c es =>
      match mapGet es p with
      | some child =>
        let r := ensurePieces rest child
        (r.1, .map c (mapSet es p r.2.1), r.2.2)
      | none =>
        let r := ensurePieces rest (.map none [])
        (r.1, .map c (mapSet (mapSet es p (.map none [])) p r.2.1), true)
    | _ => (.error .typeError, v, false)

/-- Assignment `existing[key] = value` where `existing` is the node the
ensured path resolves to: functional write-back along the path.  Raises
TypeError when that node is not a mapping (string/list subscript-assignment
by a string key, or scalar subscripting). -/
def setAtPieces (pieces : List String) (v : YValue) (key : String)
    (value : YValue) : Except PyErr YValue :=
  match pieces with
  | [] =>
    match v with
    | .map c es => .ok (.map c (mapSet es key value))
    | _ => .error .typeError
  | p :: rest =>
    match v with
    | .map c es =>
      match mapGet es p with
      | some child =>
        match setAtPieces rest child key value with
        | .ok child₁ => .ok (.map c (mapSet es p child₁))
        | .error e => .error e
      | none => .error .typeError
    | _ => .error .typeError

/-- Outcome of `codecs.open(filename, r).read()`: the contents, an IOError
with errno ENOENT, or an IOError with any other errno. -/
inductive ReadResult where
  | ok : String → ReadResult
  | enoent : ReadResult
  | otherIOError : ReadResult

/-- The fresh tree built by `load` when `_yaml` is None: an empty CommentedMap
with `yaml_set_start_comment(self._default_comment())`. -/
def freshTree (comment : String) : YValue :=
  .map (some comment) []

/-- The base-class `_default_comment`. -/
def defaultComment : String := "yaml file"

/-- Method `load()`.  `parse` is the external ruamel round-trip loader
(`ok none` for empty input, `error msg` for a YAMLError with diagnostic
`msg`); `comment` is `_default_comment()`; `r` is the outcome of reading the
file.  Returns the raised exception (if any) and the state after the call:
a non-ENOENT IOError is re-raised after `_corrupted` was reset, leaving
`_yaml` and `_dirty` untouched; a YAMLError is captured into the corrupted
state; an absent or empty file yields the fresh default tree with
`_dirty = True`. -/
def load (parse : String → Except String (Option YValue)) (comment : String)
    (r : ReadResult) (st : YamlFile) : Except PyErr Unit × YamlFile :=
  let st₁ := { st with corrupted := false, corruptedErrorMessage := none }
  match r with
  | .ok contents =>
    match parse contents with
    | .ok (some v) => (.ok (), { st₁ with yaml := v, dirty := false })
    | .ok none =>
      (.ok (), { st₁ with yaml := freshTree comment, dirty := true })
    | .error msg =>
      (.ok (), { st₁ with corrupted := true, corruptedErrorMessage := some msg,
                          yaml := freshTree comment, dirty := true })
  | .enoent => (.ok (), { st₁ with yaml := freshTree comment, dirty := true })
  | .otherIOError => (.error .ioError, st₁)

/-- The state of `__init__(filename)` just before it calls `load()`:
`self.filename = filename; self._dirty = False`; `_yaml`, `_corrupted` and
`_corrupted_error_message` are not yet bound, so their initial values here
are arbitrary placeholders that `load` overwrites on every non-raising path. -/
def initState (filename : String) (y : YValue) : YamlFile :=
  { filename := filename, yaml := y, dirty := false, corrupted := false,
    corruptedErrorMessage := none }

/-- The on-disk state at the target path: the main file and the sibling
`path + ".tmp"` file used by `_atomic_replace` (none means absent). -/
structure Disk where
  main : Option String
  tmp : Option String

/-- Reading the main file back from disk. -/
def readDisk (d : Disk) : ReadResult :=
  match d.main with
  | some c => .ok c
  | none => .enoent

/-- Helper `_atomic_replace(path, contents)`: write the full contents to the
sibling tmp file, rename it onto the path, and in a finally block remove the
tmp file, ignoring errors.  `writeOk` and `renameOk` inject I/O faults into
the write and rename steps; on any fault the raised IOError propagates, the
main file keeps its previous contents, and the tmp file is removed. -/
def atomicReplace (writeOk renameOk : Bool) (contents : String) (d : Disk) :
    Except PyErr Unit × Disk :=
  if writeOk then
    if renameOk then
      (.ok (), { main := some contents, tmp := none })
    else
      (.error .ioError, { d with tmp := none })
  else
    (.error .ioError, { d with tmp := none })

/-- Method `save()`: `_throw_if_corrupted()`, early return when not dirty,
else serialize with the external `dump`, ensure the directory (external
capability, always succeeds), atomically replace the file, and clear
`_dirty` only after a successful write. -/
def save (dump : YValue → String) (writeOk renameOk : Bool) (st : YamlFile)
    (d : Disk) : Except PyErr Unit × YamlFile × Disk :=
  if st.corrupted then (.error (corruptedError st), st, d)
  else if st.dirty = false then (.ok (), st, d)
  else
    let contents := dump st.yaml
    match atomicReplace writeOk renameOk contents d with
    | (.ok _, d₁) => (.ok (), { st with dirty := false }, d₁)
    | (.error e, d₁) => (.error e, st, d₁)

/-- Method `transform_yaml(transformer)`: the transformer receives the live
tree (modelled as returning the mutated tree together with its Python result,
where the Bool is whether the result `is True`); the file is marked dirty
unless the transformer returned True. -/
def transformYaml (st : YamlFile) (transformer : YValue → YValue × Bool) :
    Except PyErr Unit × YamlFile :=
  if st.corrupted then (.error (corruptedError st), st)
  else
    let r := transformer st.yaml
    (.ok (), { st with yaml := r.1,
                       dirty := if r.2 then st.dirty else true })

/-- Method `_ensure_section(section_path)`: `_throw_if_corrupted()`, then the
create-if-missing traversal.  Returns the final node (or the exception) and
the state after the partial mutations, `_dirty` having been set iff some
missing segment was created. -/
def ensureSection (st : YamlFile) (sectionPath : String) :
    Except PyErr YValue × YamlFile :=
  if st.corrupted then (.error (corruptedError st), st)
  else
    let r := ensurePieces (splitPath sectionPath) st.yaml
    (r.1, { st with yaml := r.2.1, dirty := st.dirty || r.2.2 })

/-- Method `set_value(section_path, key, value)`: `_throw_if_corrupted()`,
`_ensure_section`, then `existing[key] = value` followed by
`self._dirty = True` (so a raising assignment leaves `_dirty` as the ensure
step left it). -/
def setValue (st : YamlFile) (sectionPath key : String) (value : YValue) :
    Except PyErr Unit × YamlFile :=
  if st.corrupted then (.error (corruptedError st), st)
  else
    match ensureSection st sectionPath with
    | (.error e, st₁) => (.error e, st₁)
    | (.ok _, st₁) =>
      match setAtPieces (splitPath sectionPath) st₁.yaml key value with
      | .ok tree₁ => (.ok (), { st₁ with yaml := tree₁, dirty := true })
      | .error e => (.error e, st₁)

/-- Loop of `set_values` over `values.items()` (insertion order): each
iteration assigns one key on the ensured section and then sets
`self._dirty = True`. -/
def setEntriesAt (pieces : List String) (values : List (String × YValue))
    (st : YamlFile) : Except PyErr Unit × YamlFile :=
  match values with
  | [] => (.ok (), st)
  | (k, v) :: rest =>
    match setAtPieces pieces st.yaml k v with
    | .ok tree₁ => setEntriesAt pieces rest { st with yaml := tree₁, dirty := true }
    | .error e => (.error e, st)

/-- Method `set_values(section_path, values)`: `_throw_if_corrupted()`,
`_ensure_section`, then the assignment loop (a no-op for an empty dict). -/
def setValues (st : YamlFile) (sectionPath : String)
    (values : List (String × YValue)) : Except PyErr Unit × YamlFile :=
  if st.corrupted then (.error (corruptedError st), st)
  else
    match ensureSection st sectionPath with
    | (.error e, st₁) => (.error e, st₁)
    | (.ok _, st₁) => setEntriesAt (splitPath sectionPath) values st₁

/-- Method `get_value(section_path, key=None, default=None)`: read-only; no
corruption check.  When a key is supplied, `existing.get(key, default)`
raises AttributeError unless the found section is a mapping. -/
def getValue (st : YamlFile) (sectionPath : String) (key : Option String)
    (default : YValue) : Except PyErr YValue × YamlFile :=
  match getSectionOrNone st sectionPath with
  | .error e => (.error e, st)
  | .ok none => (.ok default, st)
  | .ok (some existing) =>
    match key with
    | none => (.ok existing, st)
    | some k =>
      match existing with
      | .map _ es => (.ok ((mapGet es k).getD default), st)
      | _ => (.error .attributeError, st)

/-! Helper lemmas shared by the claim theorems. -/

theorem splitDot_ne_nil (s : List Char) : splitDot s ≠ [] := by
  induction s with
  | nil => simp [splitDot]
  | cons c rest ih =>
    simp only [splitDot]
    split
    · simp
    · match h : splitDot rest with
      | [] => exact absurd h ih
      | x :: xs => simp

theorem splitPath_ne_nil (s : String) : splitPath s ≠ [] := by
  simp [splitPath, splitDot_ne_nil]

theorem getSectionPieces_emptyMap (c : Option String) (pieces : List String)
    (h : pieces ≠ []) : getSectionPieces pieces (.map c []) = .ok none := by
  match pieces with
  | [] => exact absurd rfl h
  | p :: rest => rfl

theorem getValue_emptyMap (st : YamlFile) (c : Option String)
    (h : st.yaml = .map c []) (path : String) (key : Option String)
    (default : YValue) : getValue st path key default = (.ok default, st) := by
  unfold getValue getSectionOrNone
  rw [h, getSectionPieces_emptyMap c _ (splitPath_ne_nil path)]

theorem getValue_state_eq (st : YamlFile) (path : String) (key : Option String)
    (default : YValue) : (getValue st path key default).2 = st := by
  unfold getValue
  rcases getSectionOrNone st path with e | (_ | w)
  · rfl
  · rfl
  · rcases key with _ | k
    · rfl
    · rcases w with _ | _ | _ <;> rfl

theorem setValue_corrupted (st : YamlFile) (hc : st.corrupted = true)
    (p k : String) (v : YValue) :
    setValue st p k v = (.error (corruptedError st), st) := by
  unfold setValue
  rw [hc]
  rfl

theorem setValues_corrupted (st : YamlFile) (hc : st.corrupted = true)
    (p : String) (vs : List (String × YValue)) :
    setValues st p vs = (.error (corruptedError st), st) := by
  unfold setValues
  rw [hc]
  rfl

theorem ensureSection_corrupted (st : YamlFile) (hc : st.corrupted = true)
    (p : String) : ensureSection st p = (.error (corruptedError st), st) := by
  unfold ensureSection
  rw [hc]
  rfl

theorem transformYaml_corrupted (st : YamlFile) (hc : st.corrupted = true)
    (t : YValue → YValue × Bool) :
    transformYaml st t = (.error (corruptedError st), st) := by
  unfold transformYaml
  rw [hc]
  rfl

theorem save_corrupted (st : YamlFile) (hc : st.corrupted = true)
    (dump : YValue → String) (wk rk : Bool) (d : Disk) :
    save dump wk rk st d = (.error (corruptedError st), st, d) := by
  unfold save
  rw [hc]
  rfl

/-! Theorems for the claims. -/

/-- C8: when the file exists but reading it fails with an I/O error other
than ENOENT, `load` (and therefore construction, which is `load` run on the
initial state) re-raises that I/O error to the caller, does not substitute a
default tree for `_yaml`, leaves `_dirty` untouched, and does not set
`_corrupted` (the flag is false at the raise point). -/
theorem load_io_failure_propagates
    (parse : String → Except String (Option YValue)) (comment : String)
    (st : YamlFile) :
    load parse comment .otherIOError st =
      (.error .ioError,
       { st with corrupted := false, corruptedErrorMessage := none }) := rfl

/-- C3: for an absent file, `load` completes normally and leaves the document
with `corrupted = false`, `dirty = true`, and the tree a fresh empty ordered
mapping carrying the default leading comment; `getValue` on any path and key
then returns the supplied default. -/
theorem load_missing_file_defaults
    (parse : String → Except String (Option YValue)) (comment : String)
    (st : YamlFile) (path : String) (key : Option String) (default : YValue) :
    load parse comment .enoent st =
      (.ok (), { st with yaml := freshTree comment, dirty := true,
                         corrupted := false, corruptedErrorMessage := none }) ∧
    getValue (load parse comment .enoent st).2 path key default =
      (.ok default, (load parse comment .enoent st).2) := by
  refine ⟨rfl, ?_⟩
  exact getValue_emptyMap _ (some comment) rfl path key default

/-- C9: `getValue` never mutates: on every document state, path, key and
default, the state after the call is exactly the state before it, so a
subsequent `save` behaves exactly as it would have without the `getValue`
call. -/
theorem getValue_never_mutates (st : YamlFile) (path : String)
    (key : Option String) (default : YValue) :
    (getValue st path key default).2 = st ∧
    ∀ (dump : YValue → String) (wk rk : Bool) (d : Disk),
      save dump wk rk (getValue st path key default).2 d = save dump wk rk st d := by
  refine ⟨getValue_state_eq st path key default, ?_⟩
  intro dump wk rk d
  rw [getValue_state_eq st path key default]

/-- C1: on a parse failure, `load` completes normally, sets `corrupted` and
stores the diagnostic text from the parser, and every subsequent mutating
call (`set_value`, `set_values`, `_ensure_section`, `transform_yaml`, `save`)
raises the ModifyCorruptedFailure ValueError carrying that stored message,
leaving the document (and for `save`, the disk) unchanged. -/
theorem load_parse_failure_blocks_mutation
    (parse : String → Except String (Option YValue)) (comment : String)
    (contents msg : String) (st : YamlFile) (post : YamlFile)
    (hp : parse contents = .error msg)
    (hpost : post = (load parse comment (.ok contents) st).2) :
    (load parse comment (.ok contents) st).1 = .ok () ∧
    post.corrupted = true ∧
    post.corruptedErrorMessage = some msg ∧
    corruptedError post =
      .valueError ("Cannot modify corrupted YAML file " ++ st.filename ++
        "\n" ++ msg) ∧
    (∀ p k v, setValue post p k v = (.error (corruptedError post), post)) ∧
    (∀ p vs, setValues post p vs = (.error (corruptedError post), post)) ∧
    (∀ p, ensureSection post p = (.error (corruptedError post), post)) ∧
    (∀ t, transformYaml post t = (.error (corruptedError post), post)) ∧
    (∀ dump wk rk d, save dump wk rk post d =
      (.error (corruptedError post), post, d)) := by
  have hload : load parse comment (.ok contents) st =
      (.ok (), { st with corrupted := true, corruptedErrorMessage := some msg,
                         yaml := freshTree comment, dirty := true }) := by
    simp only [load]
    rw [hp]
  subst hpost
  rw [hload]
  refine ⟨rfl, rfl, rfl, rfl, ?_, ?_, ?_, ?_, ?_⟩
  · intro p k v
    exact setValue_corrupted _ rfl p k v
  · intro p vs
    exact setValues_corrupted _ rfl p vs
  · intro p
    exact ensureSection_corrupted _ rfl p
  · intro t
    exact transformYaml_corrupted _ rfl t
  · intro dump wk rk d
    exact save_corrupted _ rfl dump wk rk d

/-- Fixture: a parser that always fails with the diagnostic text boom. -/
def badParse : String → Except String (Option YValue) :=
  fun _ => .error "boom"

/-- Fixture: the pre-load state of a freshly constructed object. -/
def st₀ : YamlFile := initState "project.yml" (.map none [])

/-- Witness for C1 at a concrete corrupted document. -/
theorem load_parse_failure_blocks_mutation_witness :
    badParse "k: [" = .error "boom" ∧
    ((load badParse "yaml file" (.ok "k: [") st₀).2.corrupted = true ∧
     setValue (load badParse "yaml file" (.ok "k: [") st₀).2 "a" "x"
         (.scalar (.int 1)) =
       (.error (corruptedError (load badParse "yaml file" (.ok "k: [") st₀).2),
        (load badParse "yaml file" (.ok "k: [") st₀).2)) := by
  have h := load_parse_failure_blocks_mutation badParse "yaml file" "k: ["
    "boom" st₀ _ rfl rfl
  exact ⟨rfl, h.2.1, h.2.2.2.2.1 "a" "x" (.scalar (.int 1))⟩

/-- C2: when the write to disk fails with an I/O error during a save that
actually attempts a write (document dirty and not corrupted), the error
propagates to the caller, the in-memory state is exactly the pre-save state
(in particular `dirty` is still true), and the main file on disk keeps its
previous contents. -/
theorem save_write_failure_keeps_state
    (dump : YValue → String) (wk rk : Bool) (st : YamlFile) (d : Disk)
    (hc : st.corrupted = false) (hd : st.dirty = true)
    (hfail : wk = false ∨ rk = false) :
    save dump wk rk st d = (.error .ioError, st, ⟨d.main, none⟩) := by
  unfold save atomicReplace
  rw [hc, hd]
  rcases hfail with h | h <;> rw [h] <;> cases wk <;> cases rk <;> rfl

/-- Witness for C2 at a concrete dirty document and failing rename. -/
theorem save_write_failure_keeps_state_witness :
    save (fun _ => "D") true false
        { filename := "f", yaml := .map none [], dirty := true,
          corrupted := false, corruptedErrorMessage := none }
        ⟨some "old", none⟩ =
      (.error .ioError,
       { filename := "f", yaml := .map none [], dirty := true,
         corrupted := false, corruptedErrorMessage := none },
       ⟨some "old", none⟩) := by
  exact save_write_failure_keeps_state (fun _ => "D") true false _ _ rfl rfl
    (Or.inr rfl)

/-- C7: after any successful `save`, `dirty` is false, and a second `save`
with no intervening mutation succeeds as a no-op: the state and the disk are
unchanged, and no write is attempted (the second call succeeds even under
injected write and rename faults). -/
theorem save_idempotent
    (dump : YValue → String) (wk rk wk₁ rk₁ : Bool) (st st₁ : YamlFile)
    (d d₁ : Disk) (h : save dump wk rk st d = (.ok (), st₁, d₁)) :
    st₁.dirty = false ∧ save dump wk₁ rk₁ st₁ d₁ = (.ok (), st₁, d₁) := by
  unfold save atomicReplace at h
  cases hc : st.corrupted with
  | true =>
    rw [hc] at h
    simp at h
  | false =>
    rw [hc] at h
    cases hd : st.dirty with
    | false =>
      rw [hd] at h
      simp only [Bool.false_eq_true, if_false, if_true, ite_true, ite_false,
        reduceIte] at h
      have h2 : st = st₁ := congrArg (fun x => x.2.1) h
      have h3 : d = d₁ := congrArg (fun x => x.2.2) h
      subst h2
      subst h3
      refine ⟨hd, ?_⟩
      unfold save
      rw [hc, hd]
      simp
    | true =>
      rw [hd] at h
      cases wk with
      | false => simp at h
      | true =>
        cases rk with
        | false => simp at h
        | true =>
          simp only [Bool.false_eq_true, Bool.true_eq_false, if_false,
            if_true, ite_true, ite_false, reduceIte] at h
          have h2 := congrArg (fun x => x.2.1) h
          have h3 := congrArg (fun x => x.2.2) h
          dsimp only at h2 h3
          subst h2
          subst h3
          refine ⟨rfl, ?_⟩
          unfold save
          simp

/-- Witness for C7 at a concrete dirty document and successful first save. -/
theorem save_idempotent_witness :
    ({ filename := "f", yaml := .map none [], dirty := false,
       corrupted := false, corruptedErrorMessage := none } : YamlFile).dirty
        = false ∧
    save (fun _ => "D") false false
        { filename := "f", yaml := .map none [], dirty := false,
          corrupted := false, corruptedErrorMessage := none }
        ⟨some "D", none⟩ =
      (.ok (),
       { filename := "f", yaml := .map none [], dirty := false,
         corrupted := false, corruptedErrorMessage := none },
       ⟨some "D", none⟩) := by
  exact save_idempotent (fun _ => "D") true true false false
    { filename := "f", yaml := .map none [], dirty := true,
      corrupted := false, corruptedErrorMessage := none } _ ⟨none, none⟩ _ rfl

/-- The tree built by the C4 scenario just before the save: the fresh
default-comment root, the three nested sections created as plain empty
dicts, and the value 1 at key x of section a.b.c. -/
def scenarioTree : YValue :=
  .map (some "yaml file")
    [("a", .map none [("b", .map none [("c", .map none
      [("x", .scalar (.int 1))])])])]

/-- C4: round trip through the accessors.  On an empty document (constructed
over an absent file), `ensureSection` of a.b.c, then `setValue` of x to 1,
then a successful `save`, then a reload of what the save wrote, and finally
`getValue` of key x at a.b.c returns 1.  The only assumption is the round
trip contract of the external parser and serializer at the written tree. -/
theorem round_trip_accessors
    (parse : String → Except String (Option YValue)) (dump : YValue → String)
    (hrt : parse (dump scenarioTree) = .ok (some scenarioTree)) :
    (let stA := (load parse defaultComment .enoent
        (initState "project.yml" (.map none []))).2
     let stB := (ensureSection stA "a.b.c").2
     let stC := (setValue stB "a.b.c" "x" (.scalar (.int 1))).2
     let r := save dump true true stC ⟨none, none⟩
     let stD := (load parse defaultComment (readDisk r.2.2) r.2.1).2
     (getValue stD "a.b.c" (some "x") (.scalar .null)).1)
      = .ok (.scalar (.int 1)) := by
  show (getValue (load parse defaultComment (.ok (dump scenarioTree))
      { filename := "project.yml", yaml := scenarioTree, dirty := false,
        corrupted := false, corruptedErrorMessage := none }).2
    "a.b.c" (some "x") (.scalar .null)).1 = .ok (.scalar (.int 1))
  simp only [load]
  rw [hrt]
  rfl

/-- Witness for C4 with a serializer and parser that round trip the scenario
tree. -/
theorem round_trip_accessors_witness :
    ((fun _ => Except.ok (some scenarioTree)) : String →
        Except String (Option YValue)) ((fun _ => "D") scenarioTree) =
      .ok (some scenarioTree) ∧
    (let stA := (load (fun _ => Except.ok (some scenarioTree)) defaultComment
        .enoent (initState "project.yml" (.map none []))).2
     let stB := (ensureSection stA "a.b.c").2
     let stC := (setValue stB "a.b.c" "x" (.scalar (.int 1))).2
     let r := save (fun _ => "D") true true stC ⟨none, none⟩
     let stD := (load (fun _ => Except.ok (some scenarioTree)) defaultComment
        (readDisk r.2.2) r.2.1).2
     (getValue stD "a.b.c" (some "x") (.scalar .null)).1)
      = .ok (.scalar (.int 1)) :=
  ⟨rfl, round_trip_accessors (fun _ => Except.ok (some scenarioTree))
    (fun _ => "D") rfl⟩

/-- Fixture: a clean, non-corrupted document whose tree already has an empty
section a. -/
def existingSectionDoc : YamlFile :=
  { filename := "project.yml", yaml := .map none [("a", .map none [])],
    dirty := false, corrupted := false, corruptedErrorMessage := none }

/-- C5 counterexample: `set_values` with an empty values dict on a
non-corrupted document whose section already exists completes normally and
leaves `dirty` false, so not every set call marks the document dirty. -/
theorem setValues_empty_dict_leaves_clean :
    existingSectionDoc.corrupted = false ∧
    existingSectionDoc.dirty = false ∧
    (setValues existingSectionDoc "a" []).1 = .ok () ∧
    (setValues existingSectionDoc "a" []).2.dirty = false :=
  ⟨rfl, rfl, rfl, rfl⟩

theorem setEntriesAt_dirty_mono (pieces : List String)
    (vs : List (String × YValue)) (st st₁ : YamlFile)
    (h : setEntriesAt pieces vs st = (.ok (), st₁)) (hd : st.dirty = true) :
    st₁.dirty = true := by
  induction vs generalizing st with
  | nil =>
    unfold setEntriesAt at h
    have h2 : st = st₁ := congrArg (fun x => x.2) h
    subst h2
    exact hd
  | cons kv rest ih =>
    unfold setEntriesAt at h
    rcases hs : setAtPieces pieces st.yaml kv.1 kv.2 with e | tree₁
    · rw [hs] at h
      simp at h
    · rw [hs] at h
      exact ih { st with yaml := tree₁, dirty := true } h rfl

/-- C5 amended: `set_value` on a non-corrupted document marks it dirty on
every call that completes normally, with no diffing of old against new
values; `set_values` marks it dirty on every call that completes normally
with a non-empty values dict (and also whenever it creates a missing
section), but an empty values dict on a fully existing section leaves
`dirty` unchanged. -/
theorem set_calls_mark_dirty (st : YamlFile) (hc : st.corrupted = false) :
    (∀ p k v st₁, setValue st p k v = (.ok (), st₁) → st₁.dirty = true) ∧
    (∀ p vs st₁, vs ≠ [] → setValues st p vs = (.ok (), st₁) →
      st₁.dirty = true) := by
  constructor
  · intro p k v st₁ h
    unfold setValue at h
    rw [hc] at h
    simp only [Bool.false_eq_true, if_false] at h
    rcases he : ensureSection st p with ⟨e | node, st₂⟩ <;> rw [he] at h <;>
      dsimp only at h
    · simp at h
    · rcases hs : setAtPieces (splitPath p) st₂.yaml k v with e | tree₁ <;>
        rw [hs] at h
      · simp at h
      · have h2 := congrArg (fun x => x.2) h
        dsimp only at h2
        subst h2
        rfl
  · intro p vs st₁ hvs h
    unfold setValues at h
    rw [hc] at h
    simp only [Bool.false_eq_true, if_false] at h
    rcases he : ensureSection st p with ⟨e | node, st₂⟩ <;> rw [he] at h <;>
      dsimp only at h
    · simp at h
    · rcases vs with _ | ⟨⟨k, v⟩, rest⟩
      · exact absurd rfl hvs
      · unfold setEntriesAt at h
        rcases hs : setAtPieces (splitPath p) st₂.yaml k v with e | tree₁ <;>
          rw [hs] at h
        · simp at h
        · exact setEntriesAt_dirty_mono _ rest _ st₁ h rfl

/-- Witness for the amended C5 at a concrete document and set calls. -/
theorem set_calls_mark_dirty_witness :
    existingSectionDoc.corrupted = false ∧
    (setValue existingSectionDoc "a" "k" (.scalar (.int 2))).2.dirty = true ∧
    (setValues existingSectionDoc "a" [("k", .scalar (.int 2))]).2.dirty
      = true := by
  have h := set_calls_mark_dirty existingSectionDoc rfl
  refine ⟨rfl, ?_, ?_⟩
  · exact h.1 "a" "k" (.scalar (.int 2)) _ rfl
  · exact h.2 "a" [("k", .scalar (.int 2))] _ (by simp) rfl

/-- Fixture: a non-corrupted document whose tree maps key a to the scalar 1,
as loaded from a file reading a: 1. -/
def scalarSectionDoc : YamlFile :=
  { filename := "project.yml", yaml := .map none [("a", .scalar (.int 1))],
    dirty := false, corrupted := false, corruptedErrorMessage := none }

/-- C6 counterexample: `get_value` is not total.  On a non-corrupted document
whose tree maps a to the scalar 1, traversing the path a.b runs the Python
membership test on the integer 1 and raises a TypeError, and asking for a key
inside section a calls get on the integer and raises an AttributeError. -/
theorem getValue_raises_on_scalar_intermediate :
    scalarSectionDoc.corrupted = false ∧
    (getValue scalarSectionDoc "a.b" none (.scalar .null)).1
      = .error .typeError ∧
    (getValue scalarSectionDoc "a" (some "k") (.scalar .null)).1
      = .error .attributeError :=
  ⟨rfl, rfl, rfl⟩

/-- Precondition under which the `get_value` traversal only touches mapping
nodes: every path segment that resolves does so inside a mapping, and when a
key is supplied the finally found section is itself a mapping. -/
def safeGet (pieces : List String) (key : Option String) (v : YValue) : Bool :=
  match pieces with
  | [] =>
    match key, v with
    | none, _ => true
    | some _, .map _ _ => true
    | some _, _ => false
  | p :: rest =>
    match v with
    | .map _ es =>
      match mapGet es p with
      | some child => safeGet rest key child
      | none => true
    | _ => false

theorem getSectionPieces_of_safeGet (pieces : List String)
    (key : Option String) (v : YValue) (h : safeGet pieces key v = true) :
    getSectionPieces pieces v = .ok none ∨
    ∃ w, getSectionPieces pieces v = .ok (some w) ∧ safeGet [] key w = true := by
  induction pieces generalizing v with
  | nil => exact Or.inr ⟨v, rfl, h⟩
  | cons p rest ih =>
    unfold safeGet at h
    rcases v with s | l | ⟨c, es⟩
    · simp at h
    · simp at h
    · dsimp only at h
      unfold getSectionPieces
      dsimp only
      rcases hg : mapGet es p with _ | child
      · exact Or.inl rfl
      · rw [hg] at h
        exact ih child h

/-- C6 amended: `get_value` never mutates and works even while corrupted, but
it is total only on mapping-shaped paths: whenever every node the traversal
passes through is a mapping and, if a key is supplied, the found section is a
mapping, it returns a value (the found node or the default) without raising;
on a path whose intermediate node is a scalar or sequence, or with a key on a
non-mapping section, it raises a TypeError or AttributeError (see the
counterexample). -/
theorem getValue_total_on_mapping_paths (st : YamlFile) (path : String)
    (key : Option String) (default : YValue)
    (h : safeGet (splitPath path) key st.yaml = true) :
    ∃ v, getValue st path key default = (.ok v, st) := by
  have hs := getSectionPieces_of_safeGet (splitPath path) key st.yaml h
  unfold getValue getSectionOrNone
  rcases hs with hnone | ⟨w, hw, hkey⟩
  · rw [hnone]
    exact ⟨default, rfl⟩
  · rw [hw]
    rcases key with _ | k
    · exact ⟨w, rfl⟩
    · unfold safeGet at hkey
      rcases w with s | l | ⟨c, es⟩
      · simp at hkey
      · simp at hkey
      · exact ⟨(mapGet es k).getD default, rfl⟩

/-- Witness for the amended C6 at a concrete mapping-shaped document. -/
theorem getValue_total_on_mapping_paths_witness :
    safeGet (splitPath "a") (some "x")
      (YValue.map none [("a", .map none [("x", .scalar (.int 1))])]) = true ∧
    ∃ v, getValue
        { filename := "f",
          yaml := .map none [("a", .map none [("x", .scalar (.int 1))])],
          dirty := false, corrupted := true,
          corruptedErrorMessage := some "boom" }
        "a" (some "x") (.scalar .null) =
      (.ok v,
       { filename := "f",
         yaml := .map none [("a", .map none [("x", .scalar (.int 1))])],
         dirty := false, corrupted := true,
         corruptedErrorMessage := some "boom" }) :=
  ⟨rfl, getValue_total_on_mapping_paths _ "a" (some "x") (.scalar .null) rfl⟩

theorem ensureSection_corrupted_eq (st : YamlFile) (p : String) :
    ((ensureSection st p).2).corrupted = st.corrupted := by
  unfold ensureSection
  split <;> rfl

theorem setValue_corrupted_eq (st : YamlFile) (p k : String) (v : YValue) :
    ((setValue st p k v).2).corrupted = st.corrupted := by
  unfold setValue
  split
  · rfl
  · rcases he : ensureSection st p with ⟨res, st₂⟩
    have h₂ : st₂.corrupted = st.corrupted := by
      have h := ensureSection_corrupted_eq st p
      rw [he] at h
      exact h
    rcases res with e | node
    · exact h₂
    · dsimp only
      split
      · exact h₂
      · exact h₂

theorem setEntriesAt_corrupted_eq (pieces : List String)
    (vs : List (String × YValue)) (st : YamlFile) :
    ((setEntriesAt pieces vs st).2).corrupted = st.corrupted := by
  induction vs generalizing st with
  | nil => rfl
  | cons kv rest ih =>
    rcases kv with ⟨k, v⟩
    unfold setEntriesAt
    rcases hs : setAtPieces pieces st.yaml k v with e | tree₁
    · rfl
    · exact ih { st with yaml := tree₁, dirty := true }

theorem setValues_corrupted_eq (st : YamlFile) (p : String)
    (vs : List (String × YValue)) :
    ((setValues st p vs).2).corrupted = st.corrupted := by
  unfold setValues
  split
  · rfl
  · rcases he : ensureSection st p with ⟨res, st₂⟩
    have h₂ : st₂.corrupted = st.corrupted := by
      have h := ensureSection_corrupted_eq st p
      rw [he] at h
      exact h
    rcases res with e | node
    · exact h₂
    · dsimp only
      rw [setEntriesAt_corrupted_eq]
      exact h₂

theorem transformYaml_corrupted_eq (st : YamlFile)
    (t : YValue → YValue × Bool) :
    ((transformYaml st t).2).corrupted = st.corrupted := by
  unfold transformYaml
  split <;> rfl

theorem save_corrupted_eq (dump : YValue → String) (wk rk : Bool)
    (st : YamlFile) (d : Disk) :
    ((save dump wk rk st d).2.1).corrupted = st.corrupted := by
  unfold save
  split
  · rfl
  · split
    · rfl
    · dsimp only
      rcases ha : atomicReplace wk rk (dump st.yaml) d with ⟨e | u, d₁⟩ <;> rfl

theorem load_inv (parse : String → Except String (Option YValue))
    (comment : String) (r : ReadResult) (st : YamlFile)
    (hc : ((load parse comment r st).2).corrupted = true) :
    ((load parse comment r st).2).dirty = true := by
  rcases r with contents | _ | _
  · simp only [load] at hc ⊢
    rcases hp : parse contents with msg | ov
    · rfl
    · rcases ov with _ | v
      · rfl
      · rw [hp] at hc
        simp at hc
  · rfl
  · simp [load] at hc

/-- States of a document reachable through the public lifecycle: construction
(`load` on the pre-load initial state), reloads, and every accessor call,
whether it completed normally or raised. -/
inductive Reachable (parse : String → Except String (Option YValue))
    (comment filename : String) : YamlFile → Prop where
  | construct (r : ReadResult) (y : YValue) :
      Reachable parse comment filename
        ((load parse comment r (initState filename y)).2)
  | reload (st : YamlFile) (r : ReadResult) :
      Reachable parse comment filename st →
      Reachable parse comment filename ((load parse comment r st).2)
  | getStep (st : YamlFile) (p : String) (k : Option String) (dflt : YValue) :
      Reachable parse comment filename st →
      Reachable parse comment filename ((getValue st p k dflt).2)
  | ensureStep (st : YamlFile) (p : String) :
      Reachable parse comment filename st →
      Reachable parse comment filename ((ensureSection st p).2)
  | setValueStep (st : YamlFile) (p k : String) (v : YValue) :
      Reachable parse comment filename st →
      Reachable parse comment filename ((setValue st p k v).2)
  | setValuesStep (st : YamlFile) (p : String)
      (vs : List (String × YValue)) :
      Reachable parse comment filename st →
      Reachable parse comment filename ((setValues st p vs).2)
  | transformStep (st : YamlFile) (t : YValue → YValue × Bool) :
      Reachable parse comment filename st →
      Reachable parse comment filename ((transformYaml st t).2)
  | saveStep (st : YamlFile) (dump : YValue → String) (wk rk : Bool)
      (d : Disk) :
      Reachable parse comment filename st →
      Reachable parse comment filename ((save dump wk rk st d).2.1)

/-- C10: in every reachable document state, `corrupted = true` implies
`dirty = true`: a parse-failure load substitutes the fresh empty tree and
marks the document dirty, every accessor either leaves a corrupted document
untouched or preserves non-corruption, and only a reload can change
`corrupted`, so no operation short of a successful reload clears `dirty`
while corrupted. -/
theorem reachable_corrupted_implies_dirty
    (parse : String → Except String (Option YValue))
    (comment filename : String) (st : YamlFile)
    (h : Reachable parse comment filename st) (hc : st.corrupted = true) :
    st.dirty = true := by
  revert hc
  induction h with
  | construct r y =>
    intro hc
    exact load_inv parse comment r _ hc
  | reload st₁ r _ ih =>
    intro hc
    exact load_inv parse comment r st₁ hc
  | getStep st₁ p k dflt _ ih =>
    intro hc
    rw [getValue_state_eq] at hc ⊢
    exact ih hc
  | ensureStep st₁ p _ ih =>
    intro hc
    rcases hcs : st₁.corrupted with _ | _
    · rw [ensureSection_corrupted_eq, hcs] at hc
      simp at hc
    · rw [ensureSection_corrupted st₁ hcs p] at hc ⊢
      exact ih hcs
  | setValueStep st₁ p k v _ ih =>
    intro hc
    rcases hcs : st₁.corrupted with _ | _
    · rw [setValue_corrupted_eq, hcs] at hc
      simp at hc
    · rw [setValue_corrupted st₁ hcs p k v] at hc ⊢
      exact ih hcs
  | setValuesStep st₁ p vs _ ih =>
    intro hc
    rcases hcs : st₁.corrupted with _ | _
    · rw [setValues_corrupted_eq, hcs] at hc
      simp at hc
    · rw [setValues_corrupted st₁ hcs p vs] at hc ⊢
      exact ih hcs
  | transformStep st₁ t _ ih =>
    intro hc
    rcases hcs : st₁.corrupted with _ | _
    · rw [transformYaml_corrupted_eq, hcs] at hc
      simp at hc
    · rw [transformYaml_corrupted st₁ hcs t] at hc ⊢
      exact ih hcs
  | saveStep st₁ dump wk rk d _ ih =>
    intro hc
    rcases hcs : st₁.corrupted with _ | _
    · rw [save_corrupted_eq, hcs] at hc
      simp at hc
    · rw [save_corrupted st₁ hcs dump wk rk d] at hc ⊢
      exact ih hcs

/-- Witness for C10 at a concrete reachable corrupted state. -/
theorem reachable_corrupted_implies_dirty_witness :
    Reachable badParse "yaml file" "project.yml"
      ((load badParse "yaml file" (.ok "k: [") st₀).2) ∧
    ((load badParse "yaml file" (.ok "k: [") st₀).2).corrupted = true ∧
    ((load badParse "yaml file" (.ok "k: [") st₀).2).dirty = true := by
  have hr : Reachable badParse "yaml file" "project.yml"
      ((load badParse "yaml file" (.ok "k: [") st₀).2) :=
    Reachable.construct (.ok "k: [") (.map none [])
  exact ⟨hr, rfl,
    reachable_corrupted_implies_dirty badParse "yaml file" "project.yml" _
      hr rfl⟩

end YamlFileSpec
